import Mathlib

/-!
Shallow embedding of `src/backend/recommender.py` (a content-based manga
recommender with a train/test accuracy evaluator) and proofs about it.

Modelling conventions:
* A pandas `DataFrame` of catalog items is a `List ItemRow`; a dataframe of
  ratings is a `List Rating`.  Row order is the dataframe row order.
* The module-level globals `tfidf_matrix` and `item_indices_map` (lines 6-8 of
  the source) form a `RecState`; functions that read or write the globals take
  a state and return the updated state.  Since `prepare_data_and_vectorize`
  also mutates the caller's `items_df` in place (it adds the derived
  `metadata_soup` column, lines 17-40), such functions also return the items
  table they leave behind.
* `sklearn`'s `TfidfVectorizer.fit_transform` and `cosine_similarity` are
  external library calls, not code of this repository; they are abstracted as
  explicit function parameters `vect : List String → List (List ℚ)` (one
  feature row per document) and `cosSim : List ℚ → List ℚ → ℚ` (similarity of
  a profile vector against one matrix row).  Theorems hold for every such
  pair; concrete witnesses instantiate them with small rational models of the
  library's behaviour on the given inputs.
* `DataFrame.sample(frac=0.5, random_state=42)` followed by
  `drop(test.index)` is a deterministic function of the sampled frame once
  the seed is fixed; it is abstracted as a parameter
  `sample : Nat → List Rating → List Rating × List Rating` (seed → user's
  ratings → (test, train)).  The source always passes the literal seed 42.
* Python `float` arithmetic is modelled over `ℚ`; `round(x, 4)` is modelled
  as round-half-to-even at four decimal places over `ℚ`.
* Python `set` values are modelled as lists deduplicated in first-occurrence
  order; only cardinality and membership of these sets are used by claims.
-/

/-- One row of the catalog (`items_df`).  String columns are total (the
source's `fillna` calls on lines 18-29 make them so); `metadata_soup` is the
derived column that `prepare_data_and_vectorize` adds in place on line 33,
absent (`none`) until that happens. -/
structure ItemRow where
  item_id : Int
  title : String
  category : String
  author : String
  year : String
  tags : String
  synopsis : String
  metadata_soup : Option String := none
deriving DecidableEq, Inhabited, Repr

/-- One row of the ratings table (`ratings_df`). -/
structure Rating where
  user_id : Int
  item_id : Int
  rating : Int
deriving DecidableEq, Inhabited, Repr

/-- The metadata soup of one item, line 33-40 of the source:
`category + " " + author + " " + year + " " + title + " " + tags + " " + synopsis`. -/
def soup (r : ItemRow) : String :=
  r.category ++ " " ++ r.author ++ " " ++ r.year ++ " " ++ r.title ++ " " ++ r.tags ++ " " ++ r.synopsis

/-- In-place effect of line 33 on one row: store the derived column. -/
def addSoup (r : ItemRow) : ItemRow :=
  { r with metadata_soup := some (soup r) }

/-- The module-level globals of `recommender.py` (lines 6-8):
`tfidf_matrix` (initially `None`) and `item_indices_map` (initially `{}`). -/
structure RecState where
  tfidf_matrix : Option (List (List ℚ)) := none
  item_indices_map : List (Int × Nat) := []
deriving DecidableEq, Inhabited, Repr

/-- The interpreter-start state: `tfidf_matrix = None`, empty index map. -/
def initState : RecState := {}

/-- Lookup in the model of a Python dict built from possibly-repeated keys:
the last binding for a key wins, as in `pd.Series(...).to_dict()`. -/
def lookupLast (m : List (Int × Nat)) (k : Int) : Option Nat :=
  m.foldl (fun acc p => if p.1 = k then some p.2 else acc) none

/-- `prepare_data_and_vectorize` (lines 10-51).  Adds the `metadata_soup`
column to the caller's `items_df` in place, runs the vectorizer over the soup
column, and rebuilds the id → row-position map; returns the mutated items
table and the new global state. -/
def prepare_data_and_vectorize (vect : List String → List (List ℚ))
    (items_df : List ItemRow) : List ItemRow × RecState :=
  let items2 := items_df.map addSoup
  let m := vect (items2.map (fun r => r.metadata_soup.getD ""))
  let imap := (items2.map ItemRow.item_id).enum.map (fun p => (p.2, p.1))
  (items2, { tfidf_matrix := some m, item_indices_map := imap })

/-- Rational addition computed directly on numerator and denominator.  The
library's `Rat.add` is `@[irreducible]`, which blocks kernel evaluation of
concrete scenarios; `qadd` is the same operation (see `qadd_eq`) built from
the reducible `Rat.divInt`. -/
def qadd (a b : ℚ) : ℚ := Rat.divInt (a.num * b.den + b.num * a.den) (a.den * b.den)

/-- Rational multiplication via `Rat.divInt`; equals `a * b` (`qmul_eq`). -/
def qmul (a b : ℚ) : ℚ := Rat.divInt (a.num * b.num) (a.den * b.den)

/-- Rational division via `Rat.divInt`; equals `a / b` (`qdiv_eq`), with the
same `x / 0 = 0` convention. -/
def qdiv (a b : ℚ) : ℚ := Rat.divInt (a.num * b.den) (a.den * b.num)

/-- The embedding of a Python integer count into `ℚ`; equals the cast
(`qofNat_eq`). -/
def qofNat (n : Nat) : ℚ := mkRat (Int.ofNat n) 1

/-- Python's `sum` over a list of rationals; equals `List.sum` (`qsum_eq`). -/
def qsum : List ℚ → ℚ
  | [] => 0
  | x :: xs => qadd x (qsum xs)

theorem qdiv_eq (a b : ℚ) : qdiv a b = a / b := by
  unfold qdiv
  rcases eq_or_ne b 0 with rfl | hb
  · simp
  · have hbn : (b.num : ℚ) ≠ 0 := Int.cast_ne_zero.mpr (Rat.num_ne_zero.mpr hb)
    have had : ((a.den : ℚ)) ≠ 0 := Nat.cast_ne_zero.mpr (Rat.den_ne_zero a)
    have hbd : ((b.den : ℚ)) ≠ 0 := Nat.cast_ne_zero.mpr (Rat.den_ne_zero b)
    rw [Rat.divInt_eq_div]
    push_cast
    conv_rhs => rw [← Rat.num_div_den a, ← Rat.num_div_den b]
    field_simp

theorem qmul_eq (a b : ℚ) : qmul a b = a * b := by
  unfold qmul
  have had : ((a.den : ℚ)) ≠ 0 := Nat.cast_ne_zero.mpr (Rat.den_ne_zero a)
  have hbd : ((b.den : ℚ)) ≠ 0 := Nat.cast_ne_zero.mpr (Rat.den_ne_zero b)
  rw [Rat.divInt_eq_div]
  push_cast
  conv_rhs => rw [← Rat.num_div_den a, ← Rat.num_div_den b]
  field_simp

theorem qadd_eq (a b : ℚ) : qadd a b = a + b := by
  unfold qadd
  have had : ((a.den : ℚ)) ≠ 0 := Nat.cast_ne_zero.mpr (Rat.den_ne_zero a)
  have hbd : ((b.den : ℚ)) ≠ 0 := Nat.cast_ne_zero.mpr (Rat.den_ne_zero b)
  rw [Rat.divInt_eq_div]
  push_cast
  conv_rhs => rw [← Rat.num_div_den a, ← Rat.num_div_den b]
  field_simp

theorem qofNat_eq (n : Nat) : qofNat n = (n : ℚ) := by
  unfold qofNat
  rw [Rat.mkRat_one]
  rfl

theorem qsum_eq (l : List ℚ) : qsum l = l.sum := by
  induction l with
  | nil => rfl
  | cons x xs ih => rw [qsum, qadd_eq, ih, List.sum_cons]

/-- Pointwise sum of equal-length rows (used by the mean on line 72). -/
def sumRows : List (List ℚ) → List ℚ
  | [] => []
  | v :: vs => vs.foldl (fun acc w => List.zipWith qadd acc w) v

/-- `np.mean(rows, axis=0)`: the unweighted mean vector of a list of rows. -/
def meanRows (vs : List (List ℚ)) : List ℚ :=
  (sumRows vs).map (fun x => qdiv x (qofNat vs.length))


/-- `build_user_profile` (lines 53-73): mean of the matrix rows of the items
the user rated with `rating >= 3`, `none` when the user has no such rating or
none of the rated ids occur in `item_indices_map`. -/
def build_user_profile (user_id : Int) (ratings_df : List Rating) (st : RecState) :
    Option (List ℚ) :=
  let user_likes := ratings_df.filter (fun r => decide (r.user_id = user_id ∧ 3 ≤ r.rating))
  if user_likes = [] then none
  else
    let liked_indices := user_likes.filterMap (fun r => lookupLast st.item_indices_map r.item_id)
    if liked_indices = [] then none
    else some (meanRows (liked_indices.map (fun i => (st.tfidf_matrix.getD []).getD i [])))

/-- One entry of the list `get_recommendations` returns (lines 103-108). -/
structure RecEntry where
  item_id : Int
  title : String
  category : String
  score : ℚ
deriving DecidableEq, Inhabited, Repr

/-- Build one output entry from a catalog row and its score. -/
def recEntryOfRow (row : ItemRow) (score : ℚ) : RecEntry :=
  ⟨row.item_id, row.title, row.category, score⟩

/-- Stable descending insertion by score (second component): the inserted
element, which comes earlier in the original list, is placed before every
element whose key is less than or equal to its own. -/
def insertDesc (x : Nat × ℚ) : List (Nat × ℚ) → List (Nat × ℚ)
  | [] => [x]
  | y :: ys => if y.2 ≤ x.2 then x :: y :: ys else y :: insertDesc x ys

/-- Model of `sorted(sim_scores, key=lambda x: x[1], reverse=True)` (line 92):
a stable sort by descending score.  Python's sort is stable, so elements with
equal scores keep their original (ascending row-index) order; this insertion
sort has exactly that behaviour. -/
def sortDesc : List (Nat × ℚ) → List (Nat × ℚ)
  | [] => []
  | x :: xs => insertDesc x (sortDesc xs)

/-- The recommendation loop of lines 97-111: walk the sorted `(row, score)`
pairs, append the row's entry when its id was not rated by the user, and stop
as soon as `len(recommendations) >= top_n` — a check made after each element,
hence after a possible append. -/
def recLoop (items : List ItemRow) (watched : List Int) (top_n : Nat) :
    List (Nat × ℚ) → List RecEntry → List RecEntry
  | [], acc => acc
  | p :: rest, acc =>
    if (items.getD p.1 default).item_id ∈ watched then
      if top_n ≤ acc.length then acc else recLoop items watched top_n rest acc
    else
      if top_n ≤ (acc ++ [recEntryOfRow (items.getD p.1 default) p.2]).length then
        acc ++ [recEntryOfRow (items.getD p.1 default) p.2]
      else
        recLoop items watched top_n rest (acc ++ [recEntryOfRow (items.getD p.1 default) p.2])

/-- Lines 79-80 and 122-123 and 189-190: rebuild the global index if and only
if `tfidf_matrix is None`; otherwise both the items table and the globals are
left untouched. -/
def ensureIndex (vect : List String → List (List ℚ)) (items_df : List ItemRow)
    (st : RecState) : List ItemRow × RecState :=
  match st.tfidf_matrix with
  | none => prepare_data_and_vectorize vect items_df
  | some _ => (items_df, st)

/-- `set(ratings_df[ratings_df['user_id'] == user_id]['item_id'])` of
line 95: the ids of the items the user has rated in the given ratings view
(as a list whose membership is the set membership). -/
def ratedIds (user_id : Int) (ratings_df : List Rating) : List Int :=
  (ratings_df.filter (fun r => decide (r.user_id = user_id))).map Rating.item_id

/-- `get_recommendations` (lines 75-113).  Returns the recommendation list
together with the items table and global state left behind. -/
def get_recommendations (vect : List String → List (List ℚ))
    (cosSim : List ℚ → List ℚ → ℚ) (user_id : Int) (items_df : List ItemRow)
    (ratings_df : List Rating) (top_n : Nat) (st0 : RecState) :
    List RecEntry × List ItemRow × RecState :=
  match build_user_profile user_id ratings_df (ensureIndex vect items_df st0).2 with
  | none => ([], (ensureIndex vect items_df st0).1, (ensureIndex vect items_df st0).2)
  | some user_profile =>
    (recLoop (ensureIndex vect items_df st0).1 (ratedIds user_id ratings_df) top_n
      (sortDesc (((ensureIndex vect items_df st0).2.tfidf_matrix.getD []).map
        (cosSim user_profile)).enum) [],
     (ensureIndex vect items_df st0).1, (ensureIndex vect items_df st0).2)

/-- Python set construction from a list: keep the distinct elements.  CPython
iterates a set of small ints in a hash-determined order; the claims only use
cardinality and membership of these sets, which do not depend on the order,
so first-occurrence order is used here. -/
def pySet (l : List Int) : List Int :=
  l.foldl (fun acc x => if x ∈ acc then acc else acc ++ [x]) []

/-- Round half to even, the model of Python's `round` (which is
round-half-to-even on binary floats), computed on numerator and denominator:
`f` is the floor of `q` and `r2` the numerator of twice the fractional part
over the denominator `q.den`. -/
def roundHalfEven (q : ℚ) : Int :=
  let f := Int.fdiv q.num (q.den : Int)
  let r2 := 2 * (q.num - f * (q.den : Int))
  if r2 < (q.den : Int) then f
  else if (q.den : Int) < r2 then f + 1
  else if f % 2 = 0 then f else f + 1

/-- `round(x, 4)` over `ℚ`. -/
def round4 (q : ℚ) : ℚ :=
  Rat.divInt (roundHalfEven (qmul q 10000)) 10000

/-- The f-string of line 132 with the hard-coded `threshold = 3`. -/
def insufficientMsg : String :=
  "Utilizador tem poucas avaliações (>=3) para dividir em treino/teste."

/-- The message of line 150. -/
def noRelevantMsg : String :=
  "Não sobraram itens relevantes no conjunto de teste."

/-- The message of line 206. -/
def noDataMsg : String :=
  "Não foi possível calcular métricas para nenhum usuário (dados insuficientes)."

/-- Result of `evaluate_accuracy`: either a sentinel dict holding only
`user_id` and `message` (lines 132 and 150), or the numeric dict of
lines 175-183.  The dict key `"recall"` is modelled by the field
`recall_score` because `recall` is a reserved word here. -/
inductive EvalResult where
  | sentinel (user_id : Int) (message : String)
  | metrics (user_id : Int) (precision recall_score f1_score : ℚ) (hits : Nat)
      (recommended relevant_in_test : List Int)
deriving DecidableEq, Repr

/-- `user_ratings` of line 125. -/
def userRatings (user_id : Int) (ratings_df : List Rating) : List Rating :=
  ratings_df.filter (fun r => decide (r.user_id = user_id))

/-- `positives` of line 129: the user's ratings at or above the hard-coded
threshold 3. -/
def positivesOf (user_id : Int) (ratings_df : List Rating) : List Rating :=
  (userRatings user_id ratings_df).filter (fun r => decide (3 ≤ r.rating))

/-- `train_df` of line 139: every other user's ratings followed by the
user's train partition. -/
def trainView (user_id : Int) (ratings_df train_items : List Rating) : List Rating :=
  ratings_df.filter (fun r => decide (¬ r.user_id = user_id)) ++ train_items

/-- `relevant_items` of line 147: the distinct ids of test-partition ratings
at or above the threshold 3. -/
def relevantSet (test_items : List Rating) : List Int :=
  pySet ((test_items.filter (fun r => decide (3 ≤ r.rating))).map Rating.item_id)

/-- The metric computation of lines 153-173 followed by the dict of
lines 175-183, given the recommended and relevant sets. -/
def metricsResult (user_id : Int) (recommended_ids relevant_items : List Int) :
    EvalResult :=
  let hits := (recommended_ids.filter (fun i => decide (i ∈ relevant_items))).length
  let precision : ℚ :=
    if 0 < recommended_ids.length then qdiv (qofNat hits) (qofNat recommended_ids.length) else 0
  let recall_q : ℚ :=
    if 0 < relevant_items.length then qdiv (qofNat hits) (qofNat relevant_items.length) else 0
  let f1 : ℚ :=
    if 0 < qadd precision recall_q then
      qdiv (qmul 2 (qmul precision recall_q)) (qadd precision recall_q) else 0
  .metrics user_id (round4 precision) (round4 recall_q) (round4 f1) hits
    recommended_ids relevant_items

/-- `evaluate_accuracy` (lines 115-183).  `sample seed l` models
`l.sample(frac=0.5, random_state=seed)` paired with `l.drop(test.index)` as
the `(test, train)` partition of the user's ratings; the source fixes
`seed = 42`.  The debug `print` calls of lines 156-160 are I/O only and have
no effect on the result. -/
def evaluate_accuracy (vect : List String → List (List ℚ))
    (cosSim : List ℚ → List ℚ → ℚ)
    (sample : Nat → List Rating → List Rating × List Rating)
    (user_id : Int) (items_df : List ItemRow) (ratings_df : List Rating)
    (st0 : RecState) : EvalResult × List ItemRow × RecState :=
  if (positivesOf user_id ratings_df).length < 2 then
    (.sentinel user_id insufficientMsg,
     (ensureIndex vect items_df st0).1, (ensureIndex vect items_df st0).2)
  else
    let g := get_recommendations vect cosSim user_id (ensureIndex vect items_df st0).1
      (trainView user_id ratings_df (sample 42 (userRatings user_id ratings_df)).2) 30
      (ensureIndex vect items_df st0).2
    if relevantSet (sample 42 (userRatings user_id ratings_df)).1 = [] then
      (.sentinel user_id noRelevantMsg, g.2.1, g.2.2)
    else
      (metricsResult user_id (pySet (g.1.map RecEntry.item_id))
        (relevantSet (sample 42 (userRatings user_id ratings_df)).1), g.2.1, g.2.2)

/-- Result of `calculate_overall_accuracy`: the aggregate no-data sentinel of
line 206 or the means dict of lines 208-213. -/
inductive OverallResult where
  | message (msg : String)
  | means (mean_precision mean_recall mean_f1_score : ℚ) (users_evaluated : Nat)
deriving DecidableEq, Repr

/-- Accumulator of the loop on lines 195-203: the three metric lists, the
success count, and the items table and global state being threaded through
the per-user evaluations. -/
structure OverallAcc where
  precisions : List ℚ
  recalls : List ℚ
  f1s : List ℚ
  count : Nat
  items : List ItemRow
  st : RecState

/-- One iteration of the loop on lines 196-203: evaluate the user and append
the three metrics exactly when the result has an `f1_score` key. -/
def overall_step (vect : List String → List (List ℚ))
    (cosSim : List ℚ → List ℚ → ℚ)
    (sample : Nat → List Rating → List Rating × List Rating)
    (ratings_df : List Rating) (acc : OverallAcc) (u : Int) : OverallAcc :=
  let e := evaluate_accuracy vect cosSim sample u acc.items ratings_df acc.st
  match e.1 with
  | .metrics _ p r f _ _ _ =>
    ⟨acc.precisions ++ [p], acc.recalls ++ [r], acc.f1s ++ [f], acc.count + 1, e.2.1, e.2.2⟩
  | .sentinel _ _ =>
    ⟨acc.precisions, acc.recalls, acc.f1s, acc.count, e.2.1, e.2.2⟩

/-- `ratings_df["user_id"].unique()`: distinct user ids in order of first
appearance. -/
def uniqueUsers (ratings_df : List Rating) : List Int :=
  pySet (ratings_df.map Rating.user_id)

/-- `calculate_overall_accuracy` (lines 185-213). -/
def calculate_overall_accuracy (vect : List String → List (List ℚ))
    (cosSim : List ℚ → List ℚ → ℚ)
    (sample : Nat → List Rating → List Rating × List Rating)
    (items_df : List ItemRow) (ratings_df : List Rating) (st0 : RecState) :
    OverallResult × List ItemRow × RecState :=
  let es := ensureIndex vect items_df st0
  let acc := (uniqueUsers ratings_df).foldl
    (overall_step vect cosSim sample ratings_df) ⟨[], [], [], 0, es.1, es.2⟩
  if acc.count = 0 then (.message noDataMsg, acc.items, acc.st)
  else
    (.means (qdiv (qsum acc.precisions) (qofNat acc.count))
      (qdiv (qsum acc.recalls) (qofNat acc.count))
      (qdiv (qsum acc.f1s) (qofNat acc.count)) acc.count, acc.items, acc.st)

/-- The numeric `(precision, recall, f1_score)` triples the aggregation loop
collects over a given list of users, when every evaluation runs against the
same (already ensured) items table and state. -/
def metricTriplesOver (vect : List String → List (List ℚ))
    (cosSim : List ℚ → List ℚ → ℚ)
    (sample : Nat → List Rating → List Rating × List Rating)
    (items_df : List ItemRow) (ratings_df : List Rating) (st : RecState)
    (users : List Int) : List (ℚ × ℚ × ℚ) :=
  users.filterMap (fun u =>
    match (evaluate_accuracy vect cosSim sample u items_df ratings_df st).1 with
    | .metrics _ p r f _ _ _ => some (p, r, f)
    | .sentinel _ _ => none)

/-- The per-user numeric `(precision, recall, f1_score)` triples that the
aggregation loop collects, evaluated against a fixed items table and state:
one triple per distinct user whose evaluation carries an `f1_score` key. -/
def perUserMetrics (vect : List String → List (List ℚ))
    (cosSim : List ℚ → List ℚ → ℚ)
    (sample : Nat → List Rating → List Rating × List Rating)
    (items_df : List ItemRow) (ratings_df : List Rating) (st : RecState) :
    List (ℚ × ℚ × ℚ) :=
  metricTriplesOver vect cosSim sample items_df ratings_df st (uniqueUsers ratings_df)

/-- A rational is a four-decimal value: an integer multiple of 1/10000. -/
def fourDec (q : ℚ) : Prop := ∃ a : Int, q = (a : ℚ) / 10000

/-- Ordering asserted by the specification for recommendation lists:
non-increasing score, and equal scores in strictly ascending item id order. -/
def claimOrder (l : List RecEntry) : Prop :=
  l.Pairwise (fun a b => b.score ≤ a.score ∧ (a.score = b.score → a.item_id < b.item_id))

instance : DecidablePred claimOrder := fun l =>
  inferInstanceAs (Decidable (List.Pairwise _ l))

/-- The ordering that `sortDesc` actually establishes on `(row, score)`
pairs coming from an `enum`: strictly larger score first, and equal scores in
strictly ascending row order (stability). -/
def sortRel (p q : Nat × ℚ) : Prop :=
  q.2 < p.2 ∨ (p.2 = q.2 ∧ p.1 < q.1)

theorem mem_insertDesc {x y : Nat × ℚ} {l : List (Nat × ℚ)} :
    y ∈ insertDesc x l ↔ y = x ∨ y ∈ l := by
  induction l with
  | nil => simp [insertDesc]
  | cons z zs ih =>
    simp only [insertDesc]
    split
    · simp [List.mem_cons]
    · simp only [List.mem_cons, ih]
      tauto

theorem perm_insertDesc (x : Nat × ℚ) (l : List (Nat × ℚ)) :
    List.Perm (insertDesc x l) (x :: l) := by
  induction l with
  | nil => simp [insertDesc]
  | cons y ys ih =>
    simp only [insertDesc]
    split
    · exact List.Perm.refl _
    · exact (ih.cons y).trans (List.Perm.swap x y ys)

theorem sortDesc_perm (l : List (Nat × ℚ)) : List.Perm (sortDesc l) l := by
  induction l with
  | nil => simp [sortDesc]
  | cons x xs ih =>
    exact (perm_insertDesc x (sortDesc xs)).trans (ih.cons x)

theorem pairwise_insertDesc {x : Nat × ℚ} {l : List (Nat × ℚ)}
    (hl : l.Pairwise sortRel) (hx : ∀ y ∈ l, x.1 < y.1) :
    (insertDesc x l).Pairwise sortRel := by
  induction l with
  | nil => simp [insertDesc, sortRel]
  | cons y ys ih =>
    rcases List.pairwise_cons.mp hl with ⟨hy, hys⟩
    simp only [insertDesc]
    split
    · rename_i hle
      refine List.pairwise_cons.mpr ⟨?_, hl⟩
      intro z hz
      rcases List.mem_cons.mp hz with rfl | hz2
      · rcases lt_or_eq_of_le hle with h | h
        · exact Or.inl h
        · exact Or.inr ⟨h.symm, hx z (List.mem_cons_self z ys)⟩
      · have hzy : z.2 ≤ y.2 := by
          rcases hy z hz2 with h | ⟨h, _⟩
          · exact le_of_lt h
          · exact le_of_eq h.symm
        have hzx : z.2 ≤ x.2 := le_trans hzy hle
        rcases lt_or_eq_of_le hzx with h | h
        · exact Or.inl h
        · exact Or.inr ⟨h.symm, hx z (List.mem_cons_of_mem y hz2)⟩
    · rename_i hgt
      push_neg at hgt
      refine List.pairwise_cons.mpr ⟨?_, ?_⟩
      · intro z hz
        rcases mem_insertDesc.mp hz with rfl | hz2
        · exact Or.inl hgt
        · exact hy z hz2
      · exact ih hys (fun z hz => hx z (List.mem_cons_of_mem y hz))

theorem sortDesc_pairwise {l : List (Nat × ℚ)}
    (h : l.Pairwise (fun p q => p.1 < q.1)) :
    (sortDesc l).Pairwise sortRel := by
  induction l with
  | nil => simp [sortDesc]
  | cons x xs ih =>
    rcases List.pairwise_cons.mp h with ⟨hx, hxs⟩
    exact pairwise_insertDesc (ih hxs)
      (fun y hy => hx y ((sortDesc_perm xs).mem_iff.mp hy))

theorem pairwise_fst_lt_enumFrom (n : Nat) (l : List α) :
    (List.enumFrom n l).Pairwise (fun p q => p.1 < q.1) := by
  induction l generalizing n with
  | nil => simp
  | cons a as ih =>
    rw [List.enumFrom_cons]
    refine List.pairwise_cons.mpr ⟨?_, ih (n + 1)⟩
    intro p hp
    exact lt_of_lt_of_le (Nat.lt_succ_self n) (List.le_fst_of_mem_enumFrom hp)

theorem pairwise_fst_lt_enum (l : List α) :
    l.enum.Pairwise (fun p q => p.1 < q.1) :=
  pairwise_fst_lt_enumFrom 0 l

theorem fst_lt_of_mem_enum {p : Nat × α} {l : List α} (h : p ∈ l.enum) :
    p.1 < l.length := by
  simpa using List.fst_lt_add_of_mem_enumFrom h

/-- The filter the loop applies: keep rows whose item id the user has not
rated. -/
def keepRow (items : List ItemRow) (watched : List Int) (p : Nat × ℚ) : Bool :=
  decide ((items.getD p.1 default).item_id ∉ watched)

theorem recLoop_eq (items : List ItemRow) (watched : List Int) (top_n : Nat)
    (l : List (Nat × ℚ)) :
    ∀ acc : List RecEntry, acc.length < top_n →
    recLoop items watched top_n l acc =
      acc ++ ((l.filter (keepRow items watched)).take (top_n - acc.length)).map
        (fun p => recEntryOfRow (items.getD p.1 default) p.2) := by
  induction l with
  | nil => intro acc _; simp [recLoop]
  | cons p rest ih =>
    intro acc h
    by_cases hw : (items.getD p.1 default).item_id ∈ watched
    · have hkeep : keepRow items watched p = false := decide_eq_false (not_not_intro hw)
      have hkeep2 : ¬ (keepRow items watched p = true) := by simp [hkeep]
      rw [recLoop, if_pos hw, if_neg (Nat.not_le.mpr h), List.filter_cons_of_neg hkeep2]
      exact ih acc h
    · have hkeep : keepRow items watched p = true := decide_eq_true hw
      rw [recLoop, if_neg hw, List.filter_cons_of_pos hkeep]
      by_cases hstop : top_n ≤ (acc ++ [recEntryOfRow (items.getD p.1 default) p.2]).length
      · rw [if_pos hstop]
        have h1 : top_n - acc.length = 1 := by
          simp only [List.length_append, List.length_singleton] at hstop
          omega
        rw [h1]
        simp [List.take_succ_cons]
      · rw [if_neg hstop]
        have hlen : (acc ++ [recEntryOfRow (items.getD p.1 default) p.2]).length < top_n := by
          omega
        rw [ih _ hlen]
        have h2 : top_n - acc.length = (top_n - (acc ++ [recEntryOfRow (items.getD p.1 default) p.2]).length) + 1 := by
          simp only [List.length_append, List.length_singleton] at hlen ⊢
          omega
        rw [h2, List.take_succ_cons]
        simp

theorem recLoop_nil_eq (items : List ItemRow) (watched : List Int)
    {top_n : Nat} (h : 1 ≤ top_n) (l : List (Nat × ℚ)) :
    recLoop items watched top_n l [] =
      ((l.filter (keepRow items watched)).take top_n).map
        (fun p => recEntryOfRow (items.getD p.1 default) p.2) := by
  simpa using recLoop_eq items watched top_n l [] (by simpa using h)

theorem recLoop_zero (items : List ItemRow) (watched : List Int)
    (l : List (Nat × ℚ)) :
    recLoop items watched 0 l [] = [] ∨
      ∃ p : Nat × ℚ, (items.getD p.1 default).item_id ∉ watched ∧
        recLoop items watched 0 l [] = [recEntryOfRow (items.getD p.1 default) p.2] := by
  cases l with
  | nil => exact Or.inl rfl
  | cons p rest =>
    by_cases hw : (items.getD p.1 default).item_id ∈ watched
    · left
      rw [recLoop, if_pos hw, if_pos (Nat.zero_le _)]
    · right
      refine ⟨p, hw, ?_⟩
      rw [recLoop, if_neg hw, if_pos (by simp)]
      simp

theorem recLoop_length_le (items : List ItemRow) (watched : List Int)
    {top_n : Nat} (h : 1 ≤ top_n) (l : List (Nat × ℚ)) :
    (recLoop items watched top_n l []).length ≤ top_n := by
  rw [recLoop_nil_eq items watched h l]
  simp only [List.length_map, List.length_take]
  exact min_le_left _ _

theorem recLoop_mem_not_watched (items : List ItemRow) (watched : List Int)
    (top_n : Nat) (l : List (Nat × ℚ)) {e : RecEntry}
    (he : e ∈ recLoop items watched top_n l []) : e.item_id ∉ watched := by
  cases Nat.eq_zero_or_pos top_n with
  | inl h0 =>
    subst h0
    rcases recLoop_zero items watched l with hz | ⟨p, hp, hz⟩
    · rw [hz] at he; simp at he
    · rw [hz] at he
      rcases List.mem_singleton.mp he with rfl
      simpa [recEntryOfRow] using hp
  | inr hpos =>
    rw [recLoop_nil_eq items watched hpos l] at he
    rcases List.mem_map.mp he with ⟨p, hp, rfl⟩
    have hp2 := List.mem_of_mem_take hp
    have := (List.mem_filter.mp hp2).2
    simpa [keepRow, recEntryOfRow] using this

theorem ensureIndex_some {st : RecState} {m : List (List ℚ)}
    (h : st.tfidf_matrix = some m) (vect : List String → List (List ℚ))
    (items_df : List ItemRow) :
    ensureIndex vect items_df st = (items_df, st) := by
  unfold ensureIndex
  rw [h]

theorem ensureIndex_tfidf_some (vect : List String → List (List ℚ))
    (items_df : List ItemRow) (st : RecState) :
    ∃ m, ((ensureIndex vect items_df st).2).tfidf_matrix = some m := by
  unfold ensureIndex
  cases h : st.tfidf_matrix with
  | none => exact ⟨_, rfl⟩
  | some m => exact ⟨m, h⟩

theorem get_recommendations_state {st : RecState} {m : List (List ℚ)}
    (h : st.tfidf_matrix = some m) (vect : List String → List (List ℚ))
    (cosSim : List ℚ → List ℚ → ℚ) (user_id : Int) (items_df : List ItemRow)
    (ratings_df : List Rating) (top_n : Nat) :
    (get_recommendations vect cosSim user_id items_df ratings_df top_n st).2 =
      (items_df, st) := by
  unfold get_recommendations
  cases hbp : build_user_profile user_id ratings_df (ensureIndex vect items_df st).2 with
  | none => simp [ensureIndex_some h]
  | some up => simp [ensureIndex_some h]

theorem evaluate_accuracy_state {st : RecState} {m : List (List ℚ)}
    (h : st.tfidf_matrix = some m) (vect : List String → List (List ℚ))
    (cosSim : List ℚ → List ℚ → ℚ)
    (sample : Nat → List Rating → List Rating × List Rating)
    (user_id : Int) (items_df : List ItemRow) (ratings_df : List Rating) :
    (evaluate_accuracy vect cosSim sample user_id items_df ratings_df st).2 =
      (items_df, st) := by
  unfold evaluate_accuracy
  split
  · simp [ensureIndex_some h]
  · simp only [ensureIndex_some h]
    split
    · simp [get_recommendations_state h]
    · simp [get_recommendations_state h]

theorem overall_foldl {st : RecState} {m : List (List ℚ)}
    (h : st.tfidf_matrix = some m) (vect : List String → List (List ℚ))
    (cosSim : List ℚ → List ℚ → ℚ)
    (sample : Nat → List Rating → List Rating × List Rating)
    (ratings_df : List Rating) (items_df : List ItemRow) :
    ∀ (users : List Int) (ps rs fs : List ℚ) (c : Nat),
    users.foldl (overall_step vect cosSim sample ratings_df)
        ⟨ps, rs, fs, c, items_df, st⟩ =
      ⟨ps ++ (metricTriplesOver vect cosSim sample items_df ratings_df st users).map (fun t => t.1),
       rs ++ (metricTriplesOver vect cosSim sample items_df ratings_df st users).map (fun t => t.2.1),
       fs ++ (metricTriplesOver vect cosSim sample items_df ratings_df st users).map (fun t => t.2.2),
       c + (metricTriplesOver vect cosSim sample items_df ratings_df st users).length,
       items_df, st⟩ := by
  intro users
  induction users with
  | nil => intro ps rs fs c; simp [metricTriplesOver]
  | cons u rest ih =>
    intro ps rs fs c
    rw [List.foldl_cons]
    have hstep : overall_step vect cosSim sample ratings_df ⟨ps, rs, fs, c, items_df, st⟩ u =
        match (evaluate_accuracy vect cosSim sample u items_df ratings_df st).1 with
        | .metrics _ p r f _ _ _ => ⟨ps ++ [p], rs ++ [r], fs ++ [f], c + 1, items_df, st⟩
        | .sentinel _ _ => ⟨ps, rs, fs, c, items_df, st⟩ := by
      unfold overall_step
      simp only []
      rw [evaluate_accuracy_state h]
    rw [hstep]
    cases he : (evaluate_accuracy vect cosSim sample u items_df ratings_df st).1 with
    | sentinel u2 msg =>
      have hmt : metricTriplesOver vect cosSim sample items_df ratings_df st (u :: rest) =
          metricTriplesOver vect cosSim sample items_df ratings_df st rest := by
        unfold metricTriplesOver
        rw [List.filterMap_cons, he]
      rw [hmt]
      exact ih ps rs fs c
    | metrics u2 p r f hh rec rel =>
      have hmt : metricTriplesOver vect cosSim sample items_df ratings_df st (u :: rest) =
          (p, r, f) :: metricTriplesOver vect cosSim sample items_df ratings_df st rest := by
        unfold metricTriplesOver
        rw [List.filterMap_cons, he]
      rw [hmt, ih]
      simp [List.append_assoc]
      omega

theorem calc_overall_spec (vect : List String → List (List ℚ))
    (cosSim : List ℚ → List ℚ → ℚ)
    (sample : Nat → List Rating → List Rating × List Rating)
    (items_df : List ItemRow) (ratings_df : List Rating) (st0 : RecState) :
    ∀ L, L = perUserMetrics vect cosSim sample (ensureIndex vect items_df st0).1 ratings_df
        (ensureIndex vect items_df st0).2 →
    calculate_overall_accuracy vect cosSim sample items_df ratings_df st0 =
      ((if L = [] then OverallResult.message noDataMsg
        else OverallResult.means ((L.map (fun t => t.1)).sum / (L.length : ℚ))
          ((L.map (fun t => t.2.1)).sum / (L.length : ℚ))
          ((L.map (fun t => t.2.2)).sum / (L.length : ℚ)) L.length),
       (ensureIndex vect items_df st0).1, (ensureIndex vect items_df st0).2) := by
  intro L hL
  obtain ⟨m, hm⟩ := ensureIndex_tfidf_some vect items_df st0
  have hfold := overall_foldl hm vect cosSim sample ratings_df
    (ensureIndex vect items_df st0).1 (uniqueUsers ratings_df) [] [] [] 0
  unfold calculate_overall_accuracy
  simp only []
  rw [hfold]
  unfold perUserMetrics at hL
  subst hL
  simp [List.length_eq_zero, qdiv_eq, qsum_eq, qofNat_eq]
  split <;> rfl

theorem evaluate_metrics_shape (vect : List String → List (List ℚ))
    (cosSim : List ℚ → List ℚ → ℚ)
    (sample : Nat → List Rating → List Rating × List Rating)
    (user_id : Int) (items_df : List ItemRow) (ratings_df : List Rating)
    (st0 : RecState) {u2 : Int} {p r f : ℚ} {hv : Nat} {rec rel : List Int}
    (hout : (evaluate_accuracy vect cosSim sample user_id items_df ratings_df st0).1 =
      EvalResult.metrics u2 p r f hv rec rel) :
    rel ≠ [] ∧ u2 = user_id ∧
    EvalResult.metrics u2 p r f hv rec rel = metricsResult user_id rec rel := by
  unfold evaluate_accuracy at hout
  split at hout
  · simp [insufficientMsg] at hout
  · simp only [] at hout
    split at hout
    · simp [noRelevantMsg] at hout
    · rename_i hrelne
      simp only [] at hout
      unfold metricsResult at hout
      simp only [] at hout
      rw [EvalResult.metrics.injEq] at hout
      obtain ⟨hu, hp, hr, hf, hhv, hrec, hrel⟩ := hout
      subst hu hp hr hf hhv hrec hrel
      exact ⟨hrelne, rfl, rfl⟩

theorem fourDec_round4 (q : ℚ) : fourDec (round4 q) := by
  refine ⟨roundHalfEven (qmul q 10000), ?_⟩
  unfold round4
  rw [Rat.divInt_eq_div]
  norm_num

/-- Claim C1 (amended): for every user, catalog, ratings view, state and
requested size `top_n ≥ 1`, `get_recommendations` returns at most `top_n`
entries, and no returned `item_id` belongs to the set of items the user has
rated in the given ratings view.  (For `top_n = 0` the loop of lines 98-111
checks the size bound only after a possible append, so one entry can still
be returned; see the counterexample.) -/
theorem get_recommendations_le_topn_and_not_rated
    (vect : List String → List (List ℚ)) (cosSim : List ℚ → List ℚ → ℚ)
    (user_id : Int) (items_df : List ItemRow) (ratings_df : List Rating)
    (top_n : Nat) (st0 : RecState) (htop : 1 ≤ top_n) :
    (get_recommendations vect cosSim user_id items_df ratings_df top_n st0).1.length ≤ top_n ∧
    ∀ e ∈ (get_recommendations vect cosSim user_id items_df ratings_df top_n st0).1,
      e.item_id ∉ ratedIds user_id ratings_df := by
  unfold get_recommendations
  cases hbp : build_user_profile user_id ratings_df (ensureIndex vect items_df st0).2 with
  | none =>
    constructor
    · simp
    · intro e he
      simp at he
  | some up =>
    constructor
    · exact recLoop_length_le _ _ htop _
    · intro e he
      exact recLoop_mem_not_watched _ _ _ _ he

/-- Claim C5: `evaluate_accuracy` is deterministic: the train/test partition
comes from `sample(frac=0.5, random_state=42)` (line 135), a pure function of
the user's ratings once the seed is fixed, so two calls with identical inputs
produce the identical partition and identical metrics.  In this embedding the
seeded sampler is the explicit function `sample` applied to the fixed seed
42, and the whole evaluation is a pure function of its arguments. -/
theorem evaluate_accuracy_deterministic (vect : List String → List (List ℚ))
    (cosSim : List ℚ → List ℚ → ℚ)
    (sample : Nat → List Rating → List Rating × List Rating)
    (user_id : Int) (items_df : List ItemRow) (ratings_df : List Rating)
    (st0 : RecState) :
    sample 42 (userRatings user_id ratings_df) =
      sample 42 (userRatings user_id ratings_df) ∧
    evaluate_accuracy vect cosSim sample user_id items_df ratings_df st0 =
      evaluate_accuracy vect cosSim sample user_id items_df ratings_df st0 :=
  ⟨rfl, rfl⟩

/-- Claim C6: a user with fewer than 2 ratings at or above the positive
threshold 3 gets the `InsufficientData` sentinel (a message, no numeric
fields) from `evaluate_accuracy` — the model is total, no exception — and
the aggregation step for such a user leaves all numeric accumulators of
`calculate_overall_accuracy` unchanged. -/
theorem evaluate_accuracy_insufficient_data (vect : List String → List (List ℚ))
    (cosSim : List ℚ → List ℚ → ℚ)
    (sample : Nat → List Rating → List Rating × List Rating)
    (user_id : Int) (items_df : List ItemRow) (ratings_df : List Rating)
    (st0 : RecState)
    (hfew : (positivesOf user_id ratings_df).length < 2) :
    (evaluate_accuracy vect cosSim sample user_id items_df ratings_df st0).1 =
      EvalResult.sentinel user_id insufficientMsg ∧
    ∀ acc : OverallAcc,
      (overall_step vect cosSim sample ratings_df acc user_id).precisions = acc.precisions ∧
      (overall_step vect cosSim sample ratings_df acc user_id).recalls = acc.recalls ∧
      (overall_step vect cosSim sample ratings_df acc user_id).f1s = acc.f1s ∧
      (overall_step vect cosSim sample ratings_df acc user_id).count = acc.count := by
  have hsent : ∀ (its : List ItemRow) (s : RecState),
      (evaluate_accuracy vect cosSim sample user_id its ratings_df s).1 =
        EvalResult.sentinel user_id insufficientMsg := by
    intro its s
    unfold evaluate_accuracy
    rw [if_pos hfew]
  refine ⟨hsent items_df st0, ?_⟩
  intro acc
  unfold overall_step
  simp only []
  rw [hsent acc.items acc.st]
  exact ⟨rfl, rfl, rfl, rfl⟩

/-- Claim C3: whenever `evaluate_accuracy` produces numeric metrics, the
returned `hits` equals the cardinality of the intersection of the returned
recommended and relevant sets, the relevant set is non-empty, and the
reported precision, recall and f1 are exactly the claim's formulas —
precision with denominator the actual recommended count (0 when the
recommended set is empty), recall with denominator the relevant count, f1
the harmonic mean with the 0 guard — each reported after the 4-decimal
rounding of lines 177-179. -/
theorem evaluate_accuracy_metric_formulas (vect : List String → List (List ℚ))
    (cosSim : List ℚ → List ℚ → ℚ)
    (sample : Nat → List Rating → List Rating × List Rating)
    (user_id : Int) (items_df : List ItemRow) (ratings_df : List Rating)
    (st0 : RecState) {u2 : Int} {p r f : ℚ} {hv : Nat} {rec rel : List Int}
    (hout : (evaluate_accuracy vect cosSim sample user_id items_df ratings_df st0).1 =
      EvalResult.metrics u2 p r f hv rec rel) :
    ∀ precision recall_v : ℚ,
      precision = (if 0 < rec.length then (hv : ℚ) / (rec.length : ℚ) else 0) →
      recall_v = (hv : ℚ) / (rel.length : ℚ) →
      hv = (rec.filter (fun i => decide (i ∈ rel))).length ∧
      rel ≠ [] ∧
      p = round4 precision ∧
      r = round4 recall_v ∧
      f = round4 (if 0 < precision + recall_v then
        2 * (precision * recall_v) / (precision + recall_v) else 0) := by
  intro pr rv hpr hrv
  obtain ⟨hrelne, hu, hshape⟩ :=
    evaluate_metrics_shape vect cosSim sample user_id items_df ratings_df st0 hout
  have hrelpos : 0 < rel.length := List.length_pos.mpr hrelne
  unfold metricsResult at hshape
  simp only [] at hshape
  rw [EvalResult.metrics.injEq] at hshape
  obtain ⟨-, hp, hr, hf, hhv, -, -⟩ := hshape
  simp only [qdiv_eq, qofNat_eq, qadd_eq, qmul_eq] at hp hr hf
  subst hpr
  subst hrv
  subst hhv
  rw [if_pos hrelpos] at hr hf
  exact ⟨rfl, hrelne, hp, hr, hf⟩

/-- Claim C4: `calculate_overall_accuracy` averages precision, recall and f1
exactly over the users whose evaluation produced numeric metrics: with `L`
the list of those users' reported metric triples, a non-empty `L` yields the
arithmetic means of its columns with `users_evaluated = L.length`, and an
empty `L` yields the single aggregate no-data sentinel. -/
theorem calculate_overall_accuracy_aggregation (vect : List String → List (List ℚ))
    (cosSim : List ℚ → List ℚ → ℚ)
    (sample : Nat → List Rating → List Rating × List Rating)
    (items_df : List ItemRow) (ratings_df : List Rating) (st0 : RecState) :
    ∀ L, L = perUserMetrics vect cosSim sample (ensureIndex vect items_df st0).1 ratings_df
        (ensureIndex vect items_df st0).2 →
      (L = [] → (calculate_overall_accuracy vect cosSim sample items_df ratings_df st0).1 =
        OverallResult.message noDataMsg) ∧
      (L ≠ [] → (calculate_overall_accuracy vect cosSim sample items_df ratings_df st0).1 =
        OverallResult.means ((L.map (fun t => t.1)).sum / (L.length : ℚ))
          ((L.map (fun t => t.2.1)).sum / (L.length : ℚ))
          ((L.map (fun t => t.2.2)).sum / (L.length : ℚ)) L.length) := by
  intro L hL
  have hs := calc_overall_spec vect cosSim sample items_df ratings_df st0 L hL
  constructor
  · intro hnil
    rw [hs]
    simp [hnil]
  · intro hne
    rw [hs]
    simp [hne]

/-- Claim C10: every numeric result of `evaluate_accuracy` reports
precision, recall and f1 as four-decimal values (integer multiples of
1/10000, from `round(x, 4)`), and `calculate_overall_accuracy` computes its
means over exactly these reported (rounded) per-user values. -/
theorem metrics_rounded_four_decimals (vect : List String → List (List ℚ))
    (cosSim : List ℚ → List ℚ → ℚ)
    (sample : Nat → List Rating → List Rating × List Rating)
    (items_df : List ItemRow) (ratings_df : List Rating) (st0 : RecState) :
    (∀ (user_id u2 : Int) (p r f : ℚ) (hv : Nat) (rec rel : List Int),
       (evaluate_accuracy vect cosSim sample user_id items_df ratings_df st0).1 =
         EvalResult.metrics u2 p r f hv rec rel →
       fourDec p ∧ fourDec r ∧ fourDec f) ∧
    (∀ L, L = perUserMetrics vect cosSim sample (ensureIndex vect items_df st0).1 ratings_df
         (ensureIndex vect items_df st0).2 →
       L ≠ [] →
       (calculate_overall_accuracy vect cosSim sample items_df ratings_df st0).1 =
         OverallResult.means ((L.map (fun t => t.1)).sum / (L.length : ℚ))
           ((L.map (fun t => t.2.1)).sum / (L.length : ℚ))
           ((L.map (fun t => t.2.2)).sum / (L.length : ℚ)) L.length) := by
  constructor
  · intro user_id u2 p r f hv rec rel hout
    obtain ⟨hrelne, hu, hshape⟩ :=
      evaluate_metrics_shape vect cosSim sample user_id items_df ratings_df st0 hout
    unfold metricsResult at hshape
    simp only [] at hshape
    rw [EvalResult.metrics.injEq] at hshape
    obtain ⟨-, hp, hr, hf, -, -, -⟩ := hshape
    exact ⟨hp ▸ fourDec_round4 _, hr ▸ fourDec_round4 _, hf ▸ fourDec_round4 _⟩
  · intro L hL hne
    have hs := calc_overall_spec vect cosSim sample items_df ratings_df st0 L hL
    rw [hs]
    simp [hne]

/-- Claim C7 (amended): the content index is rebuilt only when the cached
`tfidf_matrix` is absent (`None`); a call that finds a cached index reuses it
unchanged — there is no invalidation on catalog change, so the matrix used
for scoring can come from a previously passed catalog.  When no cache
exists, the call builds the index from the catalog actually passed. -/
theorem content_index_cache_behavior (vect : List String → List (List ℚ))
    (cosSim : List ℚ → List ℚ → ℚ) (user_id : Int) (items_df : List ItemRow)
    (ratings_df : List Rating) (top_n : Nat) (st0 : RecState)
    {m : List (List ℚ)} (hsome : st0.tfidf_matrix = some m) :
    (get_recommendations vect cosSim user_id items_df ratings_df top_n st0).2 =
      (items_df, st0) ∧
    (get_recommendations vect cosSim user_id items_df ratings_df top_n initState).2 =
      prepare_data_and_vectorize vect items_df := by
  constructor
  · exact get_recommendations_state hsome vect cosSim user_id items_df ratings_df top_n
  · unfold get_recommendations
    cases hbp : build_user_profile user_id ratings_df
        (ensureIndex vect items_df initState).2 with
    | none => simp [ensureIndex, initState]
    | some up => simp [ensureIndex, initState]

/-- Claim C8 (amended): when the content index cache is already built, all
three operations leave the caller's items table unchanged; on a
cache-building call, `prepare_data_and_vectorize` mutates the caller's
table in place by adding the derived `metadata_soup` column (line 33), so
the unchanged-table guarantee holds only for calls that find a cache. -/
theorem items_unchanged_when_index_cached (vect : List String → List (List ℚ))
    (cosSim : List ℚ → List ℚ → ℚ)
    (sample : Nat → List Rating → List Rating × List Rating)
    (user_id : Int) (items_df : List ItemRow) (ratings_df : List Rating)
    (top_n : Nat) (st0 : RecState)
    {m : List (List ℚ)} (hsome : st0.tfidf_matrix = some m) :
    (get_recommendations vect cosSim user_id items_df ratings_df top_n st0).2.1 = items_df ∧
    (evaluate_accuracy vect cosSim sample user_id items_df ratings_df st0).2.1 = items_df ∧
    (calculate_overall_accuracy vect cosSim sample items_df ratings_df st0).2.1 = items_df := by
  refine ⟨?_, ?_, ?_⟩
  · rw [get_recommendations_state hsome]
  · rw [evaluate_accuracy_state hsome]
  · have hs := calc_overall_spec vect cosSim sample items_df ratings_df st0 _ rfl
    rw [hs]
    simp [ensureIndex_some hsome]

theorem getD_lt_item_id_lt {items2 : List ItemRow}
    (hasc : (items2.map ItemRow.item_id).Pairwise (fun a b => a < b))
    {i j : Nat} (hi : i < items2.length) (hj : j < items2.length) (hij : i < j) :
    (items2.getD i default).item_id < (items2.getD j default).item_id := by
  have hi2 : i < (items2.map ItemRow.item_id).length := by simpa using hi
  have hj2 : j < (items2.map ItemRow.item_id).length := by simpa using hj
  have hlt := List.pairwise_iff_get.mp hasc ⟨i, hi2⟩ ⟨j, hj2⟩ hij
  rw [List.getD_eq_getElem items2 default hi, List.getD_eq_getElem items2 default hj]
  simpa [List.get_eq_getElem, List.getElem_map] using hlt

theorem getD_ne_item_id_ne {items2 : List ItemRow}
    (hids : (items2.map ItemRow.item_id).Nodup)
    {i j : Nat} (hi : i < items2.length) (hj : j < items2.length) (hij : i ≠ j) :
    (items2.getD i default).item_id ≠ (items2.getD j default).item_id := by
  have hi2 : i < (items2.map ItemRow.item_id).length := by simpa using hi
  have hj2 : j < (items2.map ItemRow.item_id).length := by simpa using hj
  intro heq
  apply hij
  rw [List.getD_eq_getElem items2 default hi, List.getD_eq_getElem items2 default hj] at heq
  have hget : (items2.map ItemRow.item_id).get ⟨i, hi2⟩ =
      (items2.map ItemRow.item_id).get ⟨j, hj2⟩ := by
    simpa [List.get_eq_getElem, List.getElem_map] using heq
  have := hids.get_inj_iff.mp hget
  exact congrArg Fin.val this

theorem sortTake_pairwise (scores : List ℚ) (pred : Nat × ℚ → Bool) (n : Nat) :
    (((sortDesc scores.enum).filter pred).take n).Pairwise sortRel :=
  List.Pairwise.sublist ((List.take_sublist _ _).trans (List.filter_sublist _))
    (sortDesc_pairwise (pairwise_fst_lt_enum scores))

theorem sortTake_mem_lt (scores : List ℚ) (pred : Nat × ℚ → Bool) (n : Nat)
    {p : Nat × ℚ} (hp : p ∈ ((sortDesc scores.enum).filter pred).take n) :
    p.1 < scores.length := by
  have h1 := List.mem_of_mem_take hp
  have h2 := (List.mem_filter.mp h1).1
  have h3 := (sortDesc_perm scores.enum).mem_iff.mp h2
  exact fst_lt_of_mem_enum h3

theorem sortTake_nodup_fst (scores : List ℚ) (pred : Nat × ℚ → Bool) (n : Nat) :
    ((((sortDesc scores.enum).filter pred).take n).map Prod.fst).Nodup := by
  have h0 : (scores.enum.map Prod.fst).Nodup := by
    apply List.Pairwise.imp ?_ (List.pairwise_map.mpr (pairwise_fst_lt_enum scores))
    intro a b hab
    exact ne_of_lt hab
  have h1 : ((sortDesc scores.enum).map Prod.fst).Nodup :=
    (((sortDesc_perm scores.enum).map Prod.fst).nodup_iff).mpr h0
  exact List.Nodup.sublist
    (List.Sublist.map Prod.fst ((List.take_sublist _ _).trans (List.filter_sublist _))) h1

theorem recLoop_sorted_desc (items2 : List ItemRow) (watched : List Int)
    (top_n : Nat) (scores : List ℚ) :
    (recLoop items2 watched top_n (sortDesc scores.enum) []).Pairwise
      (fun a b => b.score ≤ a.score) := by
  rcases Nat.eq_zero_or_pos top_n with rfl | hpos
  · rcases recLoop_zero items2 watched (sortDesc scores.enum) with h | ⟨p, hp, h⟩ <;>
      rw [h] <;> simp
  · rw [recLoop_nil_eq _ _ hpos]
    apply List.pairwise_map.mpr
    apply List.Pairwise.imp ?_ (sortTake_pairwise scores _ top_n)
    intro p q hpq
    rcases hpq with h | ⟨h, _⟩
    · exact le_of_lt h
    · exact le_of_eq h.symm

theorem recLoop_claimOrder (items2 : List ItemRow) (watched : List Int)
    (top_n : Nat) (scores : List ℚ)
    (hlen : scores.length = items2.length)
    (hasc : (items2.map ItemRow.item_id).Pairwise (fun a b => a < b)) :
    claimOrder (recLoop items2 watched top_n (sortDesc scores.enum) []) := by
  rcases Nat.eq_zero_or_pos top_n with rfl | hpos
  · rcases recLoop_zero items2 watched (sortDesc scores.enum) with h | ⟨p, hp, h⟩ <;>
      rw [h] <;> simp [claimOrder]
  · rw [recLoop_nil_eq _ _ hpos]
    unfold claimOrder
    apply List.pairwise_map.mpr
    apply List.Pairwise.imp_of_mem ?_ (sortTake_pairwise scores (keepRow items2 watched) top_n)
    intro p q hp hq hpq
    constructor
    · rcases hpq with h | ⟨h, _⟩
      · exact le_of_lt h
      · exact le_of_eq h.symm
    · intro heq
      rcases hpq with h | ⟨h2, hij⟩
      · exact absurd heq (ne_of_gt h)
      · exact getD_lt_item_id_lt hasc (hlen ▸ sortTake_mem_lt scores _ top_n hp)
          (hlen ▸ sortTake_mem_lt scores _ top_n hq) hij

theorem recLoop_nodup_ids (items2 : List ItemRow) (watched : List Int)
    (top_n : Nat) (scores : List ℚ)
    (hlen : scores.length = items2.length)
    (hids : (items2.map ItemRow.item_id).Nodup) :
    ((recLoop items2 watched top_n (sortDesc scores.enum) []).map RecEntry.item_id).Nodup := by
  rcases Nat.eq_zero_or_pos top_n with rfl | hpos
  · rcases recLoop_zero items2 watched (sortDesc scores.enum) with h | ⟨p, hp, h⟩ <;>
      rw [h] <;> simp
  · rw [recLoop_nil_eq _ _ hpos, List.map_map]
    show ((((sortDesc scores.enum).filter (keepRow items2 watched)).take top_n).map
      (fun p => (items2.getD p.1 default).item_id)).Nodup
    have hfst := sortTake_nodup_fst scores (keepRow items2 watched) top_n
    apply List.Nodup.map_on ?_ (List.Nodup.of_map Prod.fst hfst)
    intro p hp q hq hgeq
    by_cases hfe : p.1 = q.1
    · exact List.inj_on_of_nodup_map hfst hp hq hfe
    · exact absurd hgeq (getD_ne_item_id_ne hids
        (hlen ▸ sortTake_mem_lt scores _ top_n hp)
        (hlen ▸ sortTake_mem_lt scores _ top_n hq) hfe)

theorem map_item_id_addSoup (items_df : List ItemRow) :
    (items_df.map addSoup).map ItemRow.item_id = items_df.map ItemRow.item_id := by
  rw [List.map_map]
  rfl

theorem scores_length_initState (vect : List String → List (List ℚ))
    (hvec : ∀ ds, (vect ds).length = ds.length)
    (items_df : List ItemRow) (f : List ℚ → ℚ) :
    (((ensureIndex vect items_df initState).2.tfidf_matrix.getD []).map f).length =
      (ensureIndex vect items_df initState).1.length := by
  have h1 : (ensureIndex vect items_df initState).2.tfidf_matrix.getD [] =
      vect ((items_df.map addSoup).map (fun r => r.metadata_soup.getD "")) := rfl
  have h2 : (ensureIndex vect items_df initState).1 = items_df.map addSoup := rfl
  rw [h1, h2]
  simp [hvec]

/-- Claim C2 (amended): the recommendation list is always ordered by
non-increasing score; entries with equal scores appear in the catalog's row
order, which is ascending `item_id` order exactly when the catalog rows are
sorted by strictly ascending `item_id` — under that hypothesis (and a
vectorizer producing one row per document, evaluated from the initial empty
cache) the claimed descending-score, ascending-id tie order holds. -/
theorem get_recommendations_order (vect : List String → List (List ℚ))
    (cosSim : List ℚ → List ℚ → ℚ) (user_id : Int) (items_df : List ItemRow)
    (ratings_df : List Rating) (top_n : Nat)
    (hvec : ∀ ds, (vect ds).length = ds.length)
    (hasc : (items_df.map ItemRow.item_id).Pairwise (fun a b => a < b)) :
    (∀ st0 : RecState,
      (get_recommendations vect cosSim user_id items_df ratings_df top_n st0).1.Pairwise
        (fun a b => b.score ≤ a.score)) ∧
    claimOrder (get_recommendations vect cosSim user_id items_df ratings_df top_n initState).1 := by
  constructor
  · intro st0
    unfold get_recommendations
    cases hbp : build_user_profile user_id ratings_df (ensureIndex vect items_df st0).2 with
    | none => simp
    | some up => exact recLoop_sorted_desc _ _ _ _
  · unfold get_recommendations
    cases hbp : build_user_profile user_id ratings_df (ensureIndex vect items_df initState).2 with
    | none => simp [claimOrder]
    | some up =>
      apply recLoop_claimOrder
      · exact scores_length_initState vect hvec items_df (cosSim up)
      · have h2 : (ensureIndex vect items_df initState).1 = items_df.map addSoup := rfl
        rw [h2, map_item_id_addSoup]
        exact hasc

/-- Claim C9: for a catalog with pairwise-distinct item ids, a
recommendation list computed from the initial empty cache (with a vectorizer
producing one feature row per document) contains pairwise-distinct item ids:
each catalog row is scored once, and the loop of lines 97-111 visits each
row index at most once. -/
theorem get_recommendations_nodup_ids (vect : List String → List (List ℚ))
    (cosSim : List ℚ → List ℚ → ℚ) (user_id : Int) (items_df : List ItemRow)
    (ratings_df : List Rating) (top_n : Nat)
    (hvec : ∀ ds, (vect ds).length = ds.length)
    (hids : (items_df.map ItemRow.item_id).Nodup) :
    ((get_recommendations vect cosSim user_id items_df ratings_df top_n initState).1.map
      RecEntry.item_id).Nodup := by
  unfold get_recommendations
  cases hbp : build_user_profile user_id ratings_df (ensureIndex vect items_df initState).2 with
  | none => simp
  | some up =>
    apply recLoop_nodup_ids
    · exact scores_length_initState vect hvec items_df (cosSim up)
    · have h2 : (ensureIndex vect items_df initState).1 = items_df.map addSoup := rfl
      rw [h2, map_item_id_addSoup]
      exact hids

/-- Exact dot product over `ℚ`: the value of `cosine_similarity` on the
unit-length vectors used in the concrete scenarios below (for unit vectors
the cosine is the dot product, with no square roots involved). -/
def dotQ (a b : List ℚ) : ℚ := qsum (List.zipWith qmul a b)

/-- Scenario for the C1 counterexample: three catalog items with identical
text, so TF-IDF gives all three the same unit vector. -/
def itemsS1 : List ItemRow :=
  [⟨1, "t", "c", "a", "2000", "", "", none⟩,
   ⟨2, "t", "c", "a", "2000", "", "", none⟩,
   ⟨3, "t", "c", "a", "2000", "", "", none⟩]

/-- User 1 has rated (and liked) items 2 and 3; item 1 is unrated. -/
def ratingsS1 : List Rating := [⟨1, 2, 5⟩, ⟨1, 3, 5⟩]

/-- A vectorizer producing the same unit vector for every document (the
behaviour of TF-IDF on three identical one-term documents). -/
def vectS1 : List String → List (List ℚ) := fun ds => ds.map (fun _ => [1])

/-- Claim C1 counterexample: with `top_n = 0` the loop of lines 98-111 still
returns one entry, because the `len(recommendations) >= top_n` check only
runs after a possible append; so `|result| ≤ N` fails at `N = 0`. -/
theorem get_recommendations_topn_zero_counterexample :
    ¬ ((get_recommendations vectS1 dotQ 1 itemsS1 ratingsS1 0 initState).1.length ≤ 0) := by
  decide

/-- Claim C1 witness: at `top_n = 1` the same scenario obeys the bound and
never recommends a rated item. -/
theorem get_recommendations_topn_bound_witness :
    (get_recommendations vectS1 dotQ 1 itemsS1 ratingsS1 1 initState).1.length ≤ 1 ∧
    ∀ e ∈ (get_recommendations vectS1 dotQ 1 itemsS1 ratingsS1 1 initState).1,
      e.item_id ∉ ratedIds 1 ratingsS1 :=
  get_recommendations_le_topn_and_not_rated vectS1 dotQ 1 itemsS1 ratingsS1 1 initState
    (by decide)

/-- Catalog row with distinctive text, used by the C2 scenario: TF-IDF gives
it a unit vector orthogonal to the other rows' common vector. -/
def rowA : ItemRow := ⟨10, "A", "X", "aa", "2000", "", "", none⟩

/-- C2 scenario catalog: item 10 has its own text; items 5 and 2 share
identical text (hence identical feature vectors and identical scores) and
appear in descending id order. -/
def itemsS2 : List ItemRow :=
  [rowA, ⟨5, "B", "Y", "bb", "2001", "", "", none⟩, ⟨2, "B", "Y", "bb", "2001", "", "", none⟩]

/-- User 1 liked item 10 only. -/
def ratingsS2 : List Rating := [⟨1, 10, 5⟩]

/-- Vectorizer for the C2 scenario: `rowA`'s text maps to `[1, 0]`, every
other document to `[0, 1]` — the unit-vector pattern TF-IDF produces for one
distinctive document and two identical ones. -/
def vectS2 : List String → List (List ℚ) :=
  fun ds => ds.map (fun s => if s = soup rowA then [1, 0] else [0, 1])

/-- Claim C2 counterexample: items 5 and 2 tie with equal scores, but the
output keeps catalog row order `[5, 2]` — descending, not ascending, item
ids — because line 92 sorts only by score and Python's stable sort preserves
row order among ties. -/
theorem get_recommendations_tie_order_counterexample :
    ¬ claimOrder (get_recommendations vectS2 dotQ 1 itemsS2 ratingsS2 5 initState).1 := by
  decide

/-- First item of the C7 scenario catalogs. -/
def rowA1 : ItemRow := ⟨1, "A", "X", "aa", "2000", "", "", none⟩

/-- Second item of catalog A, with its own distinctive text. -/
def rowA2 : ItemRow := ⟨2, "B", "Y", "bb", "2001", "", "", none⟩

/-- Catalog A: the catalog the cache is built from. -/
def itemsA : List ItemRow := [rowA1, rowA2]

/-- Catalog B: same ids as catalog A, but item 2's content has changed to
match item 1's text. -/
def itemsB : List ItemRow := [rowA1, ⟨2, "A", "X", "aa", "2000", "", "", none⟩]

/-- User 1 rated item 1 with 5. -/
def ratingsS3 : List Rating := [⟨1, 1, 5⟩]

/-- Vectorizer for the C7 scenario: `rowA2`'s distinctive text maps to
`[0, 1]`, all other documents (including item 2's changed text in catalog B)
to `[1, 0]`. -/
def vectS3 : List String → List (List ℚ) :=
  fun ds => ds.map (fun s => if s = soup rowA2 then [0, 1] else [1, 0])

/-- The global state after building the index from catalog A. -/
def stA : RecState := (prepare_data_and_vectorize vectS3 itemsA).2

/-- The model of the C2/C9 witness catalog: two items with ascending ids
1 < 2 and distinct texts. -/
def itemsWO : List ItemRow := [rowA1, rowA2]

/-- User 1 rated item 1 with 5 (C2/C9 witness ratings). -/
def ratingsWO : List Rating := [⟨1, 1, 5⟩]

/-- Claim C2 witness: on a catalog sorted by ascending item id the claimed
order (descending score, ascending-id ties) holds. -/
theorem get_recommendations_order_witness :
    (∀ st0 : RecState,
      (get_recommendations vectS3 dotQ 1 itemsWO ratingsWO 5 st0).1.Pairwise
        (fun a b => b.score ≤ a.score)) ∧
    claimOrder (get_recommendations vectS3 dotQ 1 itemsWO ratingsWO 5 initState).1 :=
  get_recommendations_order vectS3 dotQ 1 itemsWO ratingsWO 5
    (fun ds => by simp [vectS3]) (by decide)

/-- Claim C9 witness: distinct catalog ids give pairwise-distinct
recommended ids. -/
theorem get_recommendations_nodup_witness :
    ((get_recommendations vectS3 dotQ 1 itemsWO ratingsWO 5 initState).1.map
      RecEntry.item_id).Nodup :=
  get_recommendations_nodup_ids vectS3 dotQ 1 itemsWO ratingsWO 5
    (fun ds => by simp [vectS3]) (by decide)

/-- Claim C7 counterexample: with the cache built from catalog A, a call
passing catalog B (same ids, changed content) neither invalidates nor
rebuilds the index — the state keeps A's matrix, which differs from the
index catalog B would produce — and the returned score (0) differs from the
score a fresh computation from catalog B returns (1): the scores were not
computed from the feature vectors of the catalog actually passed in. -/
theorem stale_cache_counterexample :
    (get_recommendations vectS3 dotQ 1 itemsB ratingsS3 5 stA).2.2 = stA ∧
    stA ≠ (prepare_data_and_vectorize vectS3 itemsB).2 ∧
    (get_recommendations vectS3 dotQ 1 itemsB ratingsS3 5 stA).1 =
      [⟨2, "A", "X", 0⟩] ∧
    (get_recommendations vectS3 dotQ 1 itemsB ratingsS3 5 initState).1 =
      [⟨2, "A", "X", 1⟩] := by
  refine ⟨by decide, by decide, by decide, by decide⟩

/-- Claim C7 witness: with a cached matrix present the call reuses the state
unchanged, and from the empty initial state it builds the index from the
passed catalog. -/
theorem content_index_cache_witness :
    (get_recommendations vectS3 dotQ 1 itemsB ratingsS3 5 stA).2 = (itemsB, stA) ∧
    (get_recommendations vectS3 dotQ 1 itemsB ratingsS3 5 initState).2 =
      prepare_data_and_vectorize vectS3 itemsB :=
  content_index_cache_behavior vectS3 dotQ 1 itemsB ratingsS3 5 stA
    (show stA.tfidf_matrix = some [[1, 0], [0, 1]] by decide)

/-- C8 scenario: a one-item catalog before any vectorization. -/
def itemsS4 : List ItemRow := [⟨1, "t", "c", "a", "2000", "", "", none⟩]

/-- Claim C8 counterexample: a cache-building call to `get_recommendations`
returns an items table that differs from the one passed in —
`prepare_data_and_vectorize` added the derived `metadata_soup` column to the
caller's table (line 33), so item records are not immutable within the
computation. -/
theorem items_table_mutation_counterexample :
    (get_recommendations vectS1 dotQ 1 itemsS4 [] 5 initState).2.1 ≠ itemsS4 := by
  decide

/-- C3/C4/C10 witness catalog. -/
def itemsW : List ItemRow :=
  [⟨10, "tA", "c", "a", "2000", "", "", none⟩, ⟨11, "tB", "c", "a", "2000", "", "", none⟩]

/-- C3/C4/C10 witness ratings: user 1 has two positive ratings. -/
def ratingsW : List Rating := [⟨1, 10, 5⟩, ⟨1, 11, 4⟩]

/-- A concrete instance of the abstract seeded sampler: the whole frame as
test set, empty train set. -/
def sampleW : Nat → List Rating → List Rating × List Rating := fun _ l => (l, [])

/-- Claim C8 witness: with the index already built from the witness catalog,
all three operations hand the items table back unchanged. -/
theorem items_unchanged_witness :
    (get_recommendations vectS1 dotQ 1 (prepare_data_and_vectorize vectS1 itemsW).1 ratingsW 5
      (prepare_data_and_vectorize vectS1 itemsW).2).2.1 =
      (prepare_data_and_vectorize vectS1 itemsW).1 ∧
    (evaluate_accuracy vectS1 dotQ sampleW 1 (prepare_data_and_vectorize vectS1 itemsW).1 ratingsW
      (prepare_data_and_vectorize vectS1 itemsW).2).2.1 =
      (prepare_data_and_vectorize vectS1 itemsW).1 ∧
    (calculate_overall_accuracy vectS1 dotQ sampleW (prepare_data_and_vectorize vectS1 itemsW).1
      ratingsW (prepare_data_and_vectorize vectS1 itemsW).2).2.1 =
      (prepare_data_and_vectorize vectS1 itemsW).1 :=
  items_unchanged_when_index_cached vectS1 dotQ sampleW 1
    (prepare_data_and_vectorize vectS1 itemsW).1 ratingsW 5
    (prepare_data_and_vectorize vectS1 itemsW).2
    (show (prepare_data_and_vectorize vectS1 itemsW).2.tfidf_matrix = some [[1], [1]] by decide)

/-- Claim C3 witness: on the witness scenario the evaluation returns the
numeric record `metrics 1 0 0 0 0 [] [10, 11]`, whose fields satisfy the
claimed formulas. -/
theorem evaluate_accuracy_metric_formulas_witness :
    (0 : Nat) = (([] : List Int).filter (fun i => decide (i ∈ ([10, 11] : List Int)))).length ∧
    ([10, 11] : List Int) ≠ [] ∧
    (0 : ℚ) = round4 0 ∧
    (0 : ℚ) = round4 0 ∧
    (0 : ℚ) = round4 (if 0 < (0 : ℚ) + 0 then 2 * ((0 : ℚ) * 0) / ((0 : ℚ) + 0) else 0) :=
  evaluate_accuracy_metric_formulas vectS1 dotQ sampleW 1 itemsW ratingsW initState
    (show (evaluate_accuracy vectS1 dotQ sampleW 1 itemsW ratingsW initState).1 =
      EvalResult.metrics 1 0 0 0 0 [] [10, 11] by decide) 0 0 (by norm_num) (by norm_num)

/-- Claim C4 witness: one user qualifies with metrics `(0, 0, 0)`, so the
aggregate is the means over that single user's rounded values with
`users_evaluated = 1`. -/
theorem calculate_overall_aggregation_witness :
    (calculate_overall_accuracy vectS1 dotQ sampleW itemsW ratingsW initState).1 =
      OverallResult.means 0 0 0 1 := by
  have h := (calculate_overall_accuracy_aggregation vectS1 dotQ sampleW itemsW ratingsW
    initState [((0 : ℚ), (0 : ℚ), (0 : ℚ))] (by decide)).2 (by decide)
  rw [h]
  norm_num

/-- Claim C6 witness: a user with a single positive rating receives the
insufficient-data sentinel. -/
theorem evaluate_accuracy_insufficient_witness :
    (evaluate_accuracy vectS1 dotQ sampleW 2 itemsW [⟨2, 7, 5⟩] initState).1 =
      EvalResult.sentinel 2 insufficientMsg :=
  (evaluate_accuracy_insufficient_data vectS1 dotQ sampleW 2 itemsW [⟨2, 7, 5⟩] initState
    (by decide)).1

/-- Claim C10 witness: the metric fields of the witness evaluation are
four-decimal values. -/
theorem metrics_rounded_witness : fourDec 0 ∧ fourDec 0 ∧ fourDec 0 :=
  (metrics_rounded_four_decimals vectS1 dotQ sampleW itemsW ratingsW initState).1
    1 1 0 0 0 0 [] [10, 11] (by decide)
